import Mathlib

/-!
Verification development for the browser voice-assistant in `src/App.tsx`.

The command-interpretation core (`handleCommand`), the speech wrapper
(`speak`), and the recognition result handler (`onresult`) are embedded as
pure Lean functions.  JavaScript strings are modelled as Lean `String`
(lists of characters); `String.prototype.includes` as `includes`;
`String.prototype.replace` with a plain string pattern as `replaceFirstS`
(first occurrence only, as in JavaScript without a global regex);
`replace(/what is|who is|what are/i, '')` as `stripQueryPhrase` (leftmost
match, alternatives tried in order, ASCII-case-insensitive);
`String.prototype.trim` as `trimS` (ASCII whitespace); and
`encodeURIComponent` as `encodeURIComponent` (unreserved characters pass
through, everything else is percent-encoded from its UTF-8 bytes with
uppercase hex).  Wall-clock readings (`new Date()` formatting) are
abstracted into an `Env` record, and timestamps into natural numbers.
-/

/-! ## String primitives -/

/-- Boolean test that `pat` is a prefix of `l` (character lists). -/
def isPrefixL : List Char → List Char → Bool
  | [], _ => true
  | _ :: _, [] => false
  | a :: as, b :: bs => a == b && isPrefixL as bs

/-- Boolean substring containment: `includesL hay needle` holds when
`needle` occurs contiguously inside `hay`.  Models
`hay.includes(needle)` in JavaScript (case-sensitive). -/
def includesL : List Char → List Char → Bool
  | [], needle => needle.isEmpty
  | c :: t, needle => isPrefixL needle (c :: t) || includesL t needle

/-- String-level substring containment, `m.includes(sub)`. -/
def includes (m sub : String) : Bool := includesL m.data sub.data

/-- ASCII-case-insensitive character comparison, for the `/i` regex flag. -/
def lcEq (a b : Char) : Bool := a.toLower == b.toLower

/-- Case-insensitive prefix test (pattern, then haystack). -/
def isPrefixCIL : List Char → List Char → Bool
  | [], _ => true
  | _ :: _, [] => false
  | a :: as, b :: bs => lcEq a b && isPrefixCIL as bs

/-- Model of `message.replace(/what is|who is|what are/i, '')`: remove the
leftmost occurrence of one of the three phrases, trying the alternatives
in the order they appear in the regex at each position; if none occurs the
string is returned unchanged. -/
def stripQueryPhraseL : List Char → List Char
  | [] => []
  | c :: t =>
    if isPrefixCIL "what is".data (c :: t) then List.drop 7 (c :: t)
    else if isPrefixCIL "who is".data (c :: t) then List.drop 6 (c :: t)
    else if isPrefixCIL "what are".data (c :: t) then List.drop 8 (c :: t)
    else c :: stripQueryPhraseL t

/-- String-level wrapper for `stripQueryPhraseL`. -/
def stripQueryPhrase (s : String) : String := String.mk (stripQueryPhraseL s.data)

/-- Model of `s.replace(pat, '')` with a plain string pattern: remove the
first occurrence of `pat`, or return `s` unchanged when absent. -/
def replaceFirstL (pat : List Char) : List Char → List Char
  | [] => []
  | c :: t => if isPrefixL pat (c :: t) then List.drop pat.length (c :: t)
              else c :: replaceFirstL pat t

/-- String-level wrapper for `replaceFirstL`. -/
def replaceFirstS (s pat : String) : String := String.mk (replaceFirstL pat.data s.data)

/-- ASCII whitespace recognized by the model of `trim`. -/
def isSpaceChar (c : Char) : Bool := c == ' ' || c == '\t' || c == '\n' || c == '\r'

/-- Model of `String.prototype.trim`: drop leading and trailing whitespace. -/
def trimS (s : String) : String :=
  String.mk (((s.data.dropWhile isSpaceChar).reverse.dropWhile isSpaceChar).reverse)

/-- Uppercase hexadecimal digit for a value below 16. -/
def hexDigit (n : Nat) : Char := if n < 10 then Char.ofNat (48 + n) else Char.ofNat (55 + n)

/-- Percent-encoding of one byte, e.g. `32` becomes `%20`. -/
def pctByte (b : Nat) : List Char := ['%', hexDigit (b / 16), hexDigit (b % 16)]

/-- UTF-8 bytes of a Unicode code point. -/
def utf8Bytes (n : Nat) : List Nat :=
  if n < 128 then [n]
  else if n < 2048 then [192 + n / 64, 128 + n % 64]
  else if n < 65536 then [224 + n / 4096, 128 + (n / 64) % 64, 128 + n % 64]
  else [240 + n / 262144, 128 + (n / 4096) % 64, 128 + (n / 64) % 64, 128 + n % 64]

/-- Characters `encodeURIComponent` leaves unescaped:
`A-Z a-z 0-9 - _ . ! ~ * ' ( )`. -/
def uriUnreserved (c : Char) : Bool :=
  ('a' ≤ c && c ≤ 'z') || ('A' ≤ c && c ≤ 'Z') || ('0' ≤ c && c ≤ '9') ||
    c == '-' || c == '_' || c == '.' || c == '!' || c == '~' || c == '*' ||
    c == Char.ofNat 39 || c == '(' || c == ')'

/-- Encoding of a single character for `encodeURIComponent`. -/
def encodeChar (c : Char) : List Char :=
  if uriUnreserved c then [c] else List.flatten ((utf8Bytes c.toNat).map pctByte)

/-- Model of JavaScript `encodeURIComponent`. -/
def encodeURIComponent (s : String) : String :=
  String.mk (List.flatten (s.data.map encodeChar))

/-! ## Data model (state held in React `useState` hooks) -/

/-- Originator of a history entry (`type: 'user' | 'assistant'`). -/
inductive Speaker where
  | user : Speaker
  | assistant : Speaker
deriving DecidableEq, Repr

/-- One entry of the conversation history (`CommandHistory` in the source);
the `toLocaleTimeString` timestamp is abstracted to a natural number. -/
structure HistoryEntry where
  speaker : Speaker
  message : String
  timestamp : Nat
deriving DecidableEq, Repr

/-- The mutable state the interpreter touches: the mute flag, the display
mode flag and the conversation history. -/
structure AppState where
  isMuted : Bool
  isDarkMode : Bool
  history : List HistoryEntry
deriving DecidableEq, Repr

/-- Clock readings used by the time and date rules, plus the timestamp the
assistant history entry would carry. -/
structure Env where
  timeString : String
  dateString : String
  now : Nat
deriving DecidableEq, Repr

/-- Result of one `handleCommand` run: the updated state, the URL opened by
`window.open` (if any), the text passed to `speak`, whether a synthesis
utterance was actually created, and whether `recognition.stop()` was
requested. -/
structure CommandOutcome where
  state : AppState
  navigation : Option String
  reply : String
  spoken : Bool
  stoppedRecognition : Bool
deriving DecidableEq, Repr

/-- Model of `speak(text)`: when the captured `isMuted` flag is set it
returns at once, otherwise it appends an assistant entry to the history
and creates a synthesis utterance.  Returns the new history and whether an
utterance was created.  The guard uses the `isMuted` value captured by the
closure, passed explicitly as `muted`. -/
def speak (muted : Bool) (now : Nat) (text : String) (hist : List HistoryEntry) :
    List HistoryEntry × Bool :=
  if muted then (hist, false)
  else (hist ++ [{ speaker := Speaker.assistant, message := text, timestamp := now }], true)

/-- Common shape of every `handleCommand` branch: apply the flag updates
(already folded into `s'`), open `nav` if present, and `await speak r`
under the captured mute flag. -/
def emit (muted : Bool) (now : Nat) (s' : AppState) (nav : Option String) (r : String)
    (stopRec : Bool) : CommandOutcome :=
  { state := { s' with history := (speak muted now r s'.history).1 }
    navigation := nav
    reply := r
    spoken := (speak muted now r s'.history).2
    stoppedRecognition := stopRec }

/-- Greeting reply of the first rule. -/
def greetReply : String := "Hello! I'm your AI assistant. How may I help you today?"

/-- Fixed capability summary spoken by the help rule (template literal in
the source, newlines and indentation included). -/
def helpReply : String :=
  "I can help you with various tasks. Here are some examples:\n        Open websites like Google, YouTube, or Facebook,\n        Check the time and date,\n        Search the internet,\n        Look up information on Wikipedia,\n        Check the weather,\n        Switch between dark and light mode,\n        Play music,\n        Use calculator.\n        Just speak your command clearly."

/-- Location computed by the weather rule:
`message.replace('weather', '').trim() || 'current location'`
(the empty string is falsy in JavaScript). -/
def weatherLocation (m : String) : String :=
  if trimS (replaceFirstS m "weather") = "" then "current location"
  else trimS (replaceFirstS m "weather")

/-- Model of `handleCommand(message)`: the sixteen-branch `if`/`else if`
ladder of `App.tsx`, evaluated top to bottom, first match wins.  `s` is
the state captured by the handler's closure; in particular every read of
`isMuted` (including the one inside `speak`) sees the pre-call value, even
in the mute branch that schedules `setIsMuted(!isMuted)`. -/
def handleCommand (env : Env) (message : String) (s : AppState) : CommandOutcome :=
  if includes message "hey" || includes message "hello" || includes message "hi" then
    emit s.isMuted env.now s none greetReply false
  else if includes message "dark mode" || includes message "light mode" then
    emit s.isMuted env.now { s with isDarkMode := includes message "dark mode" } none
      ("Switching to " ++ (if includes message "dark mode" then "dark" else "light") ++ " mode")
      false
  else if includes message "play music" || includes message "spotify" then
    emit s.isMuted env.now s (some "https://open.spotify.com") "Opening Spotify for you" false
  else if includes message "calculator" then
    emit s.isMuted env.now s (some "https://www.google.com/search?q=calculator")
      "Opening calculator" false
  else if includes message "open google" then
    emit s.isMuted env.now s (some "https://google.com") "Opening Google in a new tab" false
  else if includes message "open youtube" then
    emit s.isMuted env.now s (some "https://youtube.com") "Opening YouTube in a new tab" false
  else if includes message "open facebook" then
    emit s.isMuted env.now s (some "https://facebook.com") "Opening Facebook in a new tab" false
  else if includes message "time" then
    emit s.isMuted env.now s none ("The current time is " ++ env.timeString) false
  else if includes message "date" then
    emit s.isMuted env.now s none ("Today is " ++ env.dateString) false
  else if includes message "what is" || includes message "who is" || includes message "what are" then
    emit s.isMuted env.now s
      (some ("https://www.google.com/search?q=" ++
        encodeURIComponent (trimS (stripQueryPhrase message))))
      ("I've found some information about " ++ trimS (stripQueryPhrase message) ++
        ". Opening search results.")
      false
  else if includes message "wikipedia" then
    emit s.isMuted env.now s
      (some ("https://en.wikipedia.org/wiki/" ++
        encodeURIComponent (trimS (replaceFirstS message "wikipedia"))))
      ("Opening Wikipedia article about " ++ trimS (replaceFirstS message "wikipedia"))
      false
  else if includes message "weather" then
    emit s.isMuted env.now s
      (some ("https://www.google.com/search?q=weather+" ++
        encodeURIComponent (weatherLocation message)))
      ("Checking weather for " ++ weatherLocation message)
      false
  else if includes message "help" || includes message "what can you do" then
    emit s.isMuted env.now s none helpReply false
  else if includes message "stop listening" || includes message "stop" then
    emit s.isMuted env.now s none "Stopping voice recognition" true
  else if includes message "mute" || includes message "unmute" then
    emit s.isMuted env.now { s with isMuted := !s.isMuted } none
      (if s.isMuted then "Sound enabled" else "Sound disabled") false
  else
    emit s.isMuted env.now s
      (some ("https://www.google.com/search?q=" ++ encodeURIComponent message))
      "I'm searching for information about your request" false

/-- Predicate of the `k`-th rule of the ladder (1-based, matching the
priority list of the spec); rule 16 is the always-matching fallback. -/
def ruleMatches (k : Nat) (m : String) : Bool :=
  if k = 1 then includes m "hey" || includes m "hello" || includes m "hi"
  else if k = 2 then includes m "dark mode" || includes m "light mode"
  else if k = 3 then includes m "play music" || includes m "spotify"
  else if k = 4 then includes m "calculator"
  else if k = 5 then includes m "open google"
  else if k = 6 then includes m "open youtube"
  else if k = 7 then includes m "open facebook"
  else if k = 8 then includes m "time"
  else if k = 9 then includes m "date"
  else if k = 10 then includes m "what is" || includes m "who is" || includes m "what are"
  else if k = 11 then includes m "wikipedia"
  else if k = 12 then includes m "weather"
  else if k = 13 then includes m "help" || includes m "what can you do"
  else if k = 14 then includes m "stop listening" || includes m "stop"
  else if k = 15 then includes m "mute" || includes m "unmute"
  else if k = 16 then true
  else false

/-- Index of the rule whose action `handleCommand` executes: the same
ladder of conditions, returning the branch number. -/
def firedRule (m : String) : Nat :=
  if includes m "hey" || includes m "hello" || includes m "hi" then 1
  else if includes m "dark mode" || includes m "light mode" then 2
  else if includes m "play music" || includes m "spotify" then 3
  else if includes m "calculator" then 4
  else if includes m "open google" then 5
  else if includes m "open youtube" then 6
  else if includes m "open facebook" then 7
  else if includes m "time" then 8
  else if includes m "date" then 9
  else if includes m "what is" || includes m "who is" || includes m "what are" then 10
  else if includes m "wikipedia" then 11
  else if includes m "weather" then 12
  else if includes m "help" || includes m "what can you do" then 13
  else if includes m "stop listening" || includes m "stop" then 14
  else if includes m "mute" || includes m "unmute" then 15
  else 16

/-- Outcome of the `k`-th branch of the `handleCommand` ladder, as a table
indexed by the rule number (used to state which action each rule
performs); any index outside 1..15 selects the fallback branch 16. -/
def ruleOutcome (k : Nat) (env : Env) (m : String) (s : AppState) : CommandOutcome :=
  if k = 1 then emit s.isMuted env.now s none greetReply false
  else if k = 2 then
    emit s.isMuted env.now { s with isDarkMode := includes m "dark mode" } none
      ("Switching to " ++ (if includes m "dark mode" then "dark" else "light") ++ " mode") false
  else if k = 3 then
    emit s.isMuted env.now s (some "https://open.spotify.com") "Opening Spotify for you" false
  else if k = 4 then
    emit s.isMuted env.now s (some "https://www.google.com/search?q=calculator")
      "Opening calculator" false
  else if k = 5 then
    emit s.isMuted env.now s (some "https://google.com") "Opening Google in a new tab" false
  else if k = 6 then
    emit s.isMuted env.now s (some "https://youtube.com") "Opening YouTube in a new tab" false
  else if k = 7 then
    emit s.isMuted env.now s (some "https://facebook.com") "Opening Facebook in a new tab" false
  else if k = 8 then
    emit s.isMuted env.now s none ("The current time is " ++ env.timeString) false
  else if k = 9 then
    emit s.isMuted env.now s none ("Today is " ++ env.dateString) false
  else if k = 10 then
    emit s.isMuted env.now s
      (some ("https://www.google.com/search?q=" ++
        encodeURIComponent (trimS (stripQueryPhrase m))))
      ("I've found some information about " ++ trimS (stripQueryPhrase m) ++
        ". Opening search results.") false
  else if k = 11 then
    emit s.isMuted env.now s
      (some ("https://en.wikipedia.org/wiki/" ++
        encodeURIComponent (trimS (replaceFirstS m "wikipedia"))))
      ("Opening Wikipedia article about " ++ trimS (replaceFirstS m "wikipedia")) false
  else if k = 12 then
    emit s.isMuted env.now s
      (some ("https://www.google.com/search?q=weather+" ++
        encodeURIComponent (weatherLocation m)))
      ("Checking weather for " ++ weatherLocation m) false
  else if k = 13 then emit s.isMuted env.now s none helpReply false
  else if k = 14 then emit s.isMuted env.now s none "Stopping voice recognition" true
  else if k = 15 then
    emit s.isMuted env.now { s with isMuted := !s.isMuted } none
      (if s.isMuted then "Sound enabled" else "Sound disabled") false
  else
    emit s.isMuted env.now s
      (some ("https://www.google.com/search?q=" ++ encodeURIComponent m))
      "I'm searching for information about your request" false

/-! ## Dialogue-turn session model (recognition `onresult` handler) -/

/-- Model of `transcript.toLowerCase()` (ASCII letters). -/
def lowerStr (s : String) : String := String.mk (s.data.map Char.toLower)

/-- One finalized recognition result together with the clock readings of
its turn: `tUser` is the wall-clock instant of the user history entry,
`tAsst` the instant of the assistant reply entry (the user entry is
appended first, so `tUser ≤ tAsst` on a real clock). -/
structure Utterance where
  transcript : String
  tUser : Nat
  tAsst : Nat
  timeString : String
  dateString : String
deriving DecidableEq, Repr

/-- Clock readings of a turn, packaged for `handleCommand`. -/
def envOf (u : Utterance) : Env :=
  { timeString := u.timeString, dateString := u.dateString, now := u.tAsst }

/-- State after the `onresult` handler appended the user history entry for
a finalized transcript. -/
def withUserEntry (u : Utterance) (s : AppState) : AppState :=
  { s with history := s.history ++
      [{ speaker := Speaker.user, message := u.transcript, timestamp := u.tUser }] }

/-- Model of the final-result branch of `newRecognition.onresult`: append
the user entry, then run `handleCommand(transcript.toLowerCase())`. -/
def stepUtterance (u : Utterance) (s : AppState) : AppState :=
  (handleCommand (envOf u) (lowerStr u.transcript) (withUserEntry u s)).state

/-- A whole session: interpret the utterances in order. -/
def runSession (us : List Utterance) (s : AppState) : AppState :=
  us.foldl (fun st u => stepUtterance u st) s

/-- Chronology of a session: starting from instant `t`, each turn's user
instant is at least the previous bound and precedes its assistant
instant. -/
def chrono : Nat → List Utterance → Bool
  | _, [] => true
  | t, u :: us => decide (t ≤ u.tUser) && decide (u.tUser ≤ u.tAsst) && chrono u.tAsst us

/-- Final clock bound of a chronological session starting at `t`. -/
def endTime : Nat → List Utterance → Nat
  | t, [] => t
  | _, u :: us => endTime u.tAsst us

/-- Boolean recognizer of user history entries. -/
def isUserEntry (e : HistoryEntry) : Bool :=
  match e.speaker with
  | Speaker.user => true
  | Speaker.assistant => false

/-- Boolean recognizer of assistant history entries. -/
def isAsstEntry (e : HistoryEntry) : Bool :=
  match e.speaker with
  | Speaker.user => false
  | Speaker.assistant => true

/-- Timestamp order between history entries. -/
def stampLE (a b : HistoryEntry) : Prop := a.timestamp ≤ b.timestamp

/-! ## Concrete fixtures for witnesses and counterexamples -/

/-- Fixed clock readings used by concrete evaluations. -/
def env0 : Env := { timeString := "10:30 AM", dateString := "Friday, October 10, 2026", now := 5 }

/-- Initial state with sound on (the app starts with `isMuted = false`,
`isDarkMode = true`, empty history). -/
def st0 : AppState := { isMuted := false, isDarkMode := true, history := [] }

/-- A state whose mute flag is set. -/
def stMuted : AppState := { isMuted := true, isDarkMode := true, history := [] }

/-- A small concrete session of two utterances on a monotone clock. -/
def us0 : List Utterance :=
  [{ transcript := "hello", tUser := 1, tAsst := 2,
     timeString := "10:30 AM", dateString := "Friday, October 10, 2026" },
   { transcript := "xyzzy", tUser := 3, tAsst := 4,
     timeString := "10:31 AM", dateString := "Friday, October 10, 2026" }]


/-! ## Dispatch lemmas -/

theorem dispatch_master (env : Env) (m : String) (s : AppState) :
    handleCommand env m s = ruleOutcome (firedRule m) env m s
    ∧ 1 ≤ firedRule m ∧ firedRule m ≤ 16
    ∧ ruleMatches (firedRule m) m = true
    ∧ ∀ j, j < firedRule m → ruleMatches j m = false := by
  unfold handleCommand firedRule
  cases h1 : includes m "hey" || includes m "hello" || includes m "hi" with
  | true =>
    simp only [reduceIte]
    refine ⟨by simp [ruleOutcome], by omega, by omega, by simp [ruleMatches, h1], ?_⟩
    intro j hj
    interval_cases j
    simp [ruleMatches]
  | false =>
    simp only [Bool.false_eq_true, reduceIte]
    cases h2 : includes m "dark mode" || includes m "light mode" with
    | true =>
      simp only [reduceIte]
      refine ⟨by simp [ruleOutcome], by omega, by omega, by simp [ruleMatches, h2], ?_⟩
      intro j hj
      interval_cases j <;> simp_all [ruleMatches]
    | false =>
      simp only [Bool.false_eq_true, reduceIte]
      cases h3 : includes m "play music" || includes m "spotify" with
      | true =>
        simp only [reduceIte]
        refine ⟨by simp [ruleOutcome], by omega, by omega, by simp [ruleMatches, h3], ?_⟩
        intro j hj
        interval_cases j <;> simp_all [ruleMatches]
      | false =>
        simp only [Bool.false_eq_true, reduceIte]
        cases h4 : includes m "calculator" with
        | true =>
          simp only [reduceIte]
          refine ⟨by simp [ruleOutcome], by omega, by omega, by simp [ruleMatches, h4], ?_⟩
          intro j hj
          interval_cases j <;> simp_all [ruleMatches]
        | false =>
          simp only [Bool.false_eq_true, reduceIte]
          cases h5 : includes m "open google" with
          | true =>
            simp only [reduceIte]
            refine ⟨by simp [ruleOutcome], by omega, by omega, by simp [ruleMatches, h5], ?_⟩
            intro j hj
            interval_cases j <;> simp_all [ruleMatches]
          | false =>
            simp only [Bool.false_eq_true, reduceIte]
            cases h6 : includes m "open youtube" with
            | true =>
              simp only [reduceIte]
              refine ⟨by simp [ruleOutcome], by omega, by omega, by simp [ruleMatches, h6], ?_⟩
              intro j hj
              interval_cases j <;> simp_all [ruleMatches]
            | false =>
              simp only [Bool.false_eq_true, reduceIte]
              cases h7 : includes m "open facebook" with
              | true =>
                simp only [reduceIte]
                refine ⟨by simp [ruleOutcome], by omega, by omega, by simp [ruleMatches, h7], ?_⟩
                intro j hj
                interval_cases j <;> simp_all [ruleMatches]
              | false =>
                simp only [Bool.false_eq_true, reduceIte]
                cases h8 : includes m "time" with
                | true =>
                  simp only [reduceIte]
                  refine ⟨by simp [ruleOutcome], by omega, by omega, by simp [ruleMatches, h8], ?_⟩
                  intro j hj
                  interval_cases j <;> simp_all [ruleMatches]
                | false =>
                  simp only [Bool.false_eq_true, reduceIte]
                  cases h9 : includes m "date" with
                  | true =>
                    simp only [reduceIte]
                    refine ⟨by simp [ruleOutcome], by omega, by omega, by simp [ruleMatches, h9], ?_⟩
                    intro j hj
                    interval_cases j <;> simp_all [ruleMatches]
                  | false =>
                    simp only [Bool.false_eq_true, reduceIte]
                    cases h10 : includes m "what is" || includes m "who is" || includes m "what are" with
                    | true =>
                      simp only [reduceIte]
                      refine ⟨by simp [ruleOutcome], by omega, by omega, by simp [ruleMatches, h10], ?_⟩
                      intro j hj
                      interval_cases j <;> simp_all [ruleMatches]
                    | false =>
                      simp only [Bool.false_eq_true, reduceIte]
                      cases h11 : includes m "wikipedia" with
                      | true =>
                        simp only [reduceIte]
                        refine ⟨by simp [ruleOutcome], by omega, by omega, by simp [ruleMatches, h11], ?_⟩
                        intro j hj
                        interval_cases j <;> simp_all [ruleMatches]
                      | false =>
                        simp only [Bool.false_eq_true, reduceIte]
                        cases h12 : includes m "weather" with
                        | true =>
                          simp only [reduceIte]
                          refine ⟨by simp [ruleOutcome], by omega, by omega, by simp [ruleMatches, h12], ?_⟩
                          intro j hj
                          interval_cases j <;> simp_all [ruleMatches]
                        | false =>
                          simp only [Bool.false_eq_true, reduceIte]
                          cases h13 : includes m "help" || includes m "what can you do" with
                          | true =>
                            simp only [reduceIte]
                            refine ⟨by simp [ruleOutcome], by omega, by omega, by simp [ruleMatches, h13], ?_⟩
                            intro j hj
                            interval_cases j <;> simp_all [ruleMatches]
                          | false =>
                            simp only [Bool.false_eq_true, reduceIte]
                            cases h14 : includes m "stop listening" || includes m "stop" with
                            | true =>
                              simp only [reduceIte]
                              refine ⟨by simp [ruleOutcome], by omega, by omega, by simp [ruleMatches, h14], ?_⟩
                              intro j hj
                              interval_cases j <;> simp_all [ruleMatches]
                            | false =>
                              simp only [Bool.false_eq_true, reduceIte]
                              cases h15 : includes m "mute" || includes m "unmute" with
                              | true =>
                                simp only [reduceIte]
                                refine ⟨by simp [ruleOutcome], by omega, by omega, by simp [ruleMatches, h15], ?_⟩
                                intro j hj
                                interval_cases j <;> simp_all [ruleMatches]
                              | false =>
                                simp only [Bool.false_eq_true, reduceIte]
                                refine ⟨by simp [ruleOutcome], by omega, by omega, by simp [ruleMatches], ?_⟩
                                intro j hj
                                interval_cases j <;> simp_all [ruleMatches]

theorem handleCommand_eq_ruleOutcome (env : Env) (m : String) (s : AppState) :
    handleCommand env m s = ruleOutcome (firedRule m) env m s :=
  (dispatch_master env m s).1

theorem firedRule_least (m : String) :
    ruleMatches (firedRule m) m = true ∧ ∀ j, j < firedRule m → ruleMatches j m = false :=
  ⟨(dispatch_master env0 m st0).2.2.2.1, (dispatch_master env0 m st0).2.2.2.2⟩

theorem firedRule_bounds (m : String) : 1 ≤ firedRule m ∧ firedRule m ≤ 16 :=
  ⟨(dispatch_master env0 m st0).2.1, (dispatch_master env0 m st0).2.2.1⟩

theorem firedRule_unique (m : String) (k : Nat) (hk : ruleMatches k m = true)
    (hleast : ∀ j, j < k → ruleMatches j m = false) : k = firedRule m := by
  obtain ⟨hf, hfl⟩ := firedRule_least m
  rcases Nat.lt_trichotomy k (firedRule m) with h | h | h
  · exact absurd hk (by simp [hfl k h])
  · exact h
  · exact absurd hf (by simp [hleast _ h])

theorem handleCommand_of_fired (env : Env) (m : String) (s : AppState) (k : Nat)
    (h : firedRule m = k) : handleCommand env m s = ruleOutcome k env m s := by
  rw [handleCommand_eq_ruleOutcome, h]

theorem handleCommand_history (env : Env) (m : String) (s : AppState) :
    (handleCommand env m s).state.history =
      s.history ++ (if s.isMuted then [] else
        [{ speaker := Speaker.assistant, message := (handleCommand env m s).reply,
           timestamp := env.now }]) := by
  have hm := dispatch_master env m s
  rw [hm.1]
  have hlo := hm.2.1
  have hhi := hm.2.2.1
  generalize hK : firedRule m = K at hlo hhi ⊢
  cases hmu : s.isMuted <;> interval_cases K <;> simp [ruleOutcome, emit, speak, hmu]

theorem handleCommand_spoken (env : Env) (m : String) (s : AppState) :
    (handleCommand env m s).spoken = !s.isMuted := by
  have hm := dispatch_master env m s
  rw [hm.1]
  have hlo := hm.2.1
  have hhi := hm.2.2.1
  generalize hK : firedRule m = K at hlo hhi ⊢
  cases hmu : s.isMuted <;> interval_cases K <;> simp [ruleOutcome, emit, speak, hmu]

theorem handleCommand_navigation_eq (env : Env) (m : String) (s : AppState) :
    (handleCommand env m s).navigation =
      (handleCommand env m { s with isMuted := false }).navigation := by
  rw [(dispatch_master env m s).1, (dispatch_master env m { s with isMuted := false }).1]
  have hlo := (dispatch_master env m s).2.1
  have hhi := (dispatch_master env m s).2.2.1
  generalize hK : firedRule m = K at hlo hhi ⊢
  interval_cases K <;> simp [ruleOutcome, emit]

theorem handleCommand_darkmode_eq (env : Env) (m : String) (s : AppState) :
    (handleCommand env m s).state.isDarkMode =
      (handleCommand env m { s with isMuted := false }).state.isDarkMode := by
  rw [(dispatch_master env m s).1, (dispatch_master env m { s with isMuted := false }).1]
  have hlo := (dispatch_master env m s).2.1
  have hhi := (dispatch_master env m s).2.2.1
  generalize hK : firedRule m = K at hlo hhi ⊢
  interval_cases K <;> simp [ruleOutcome, emit]

theorem handleCommand_mute_flag (env : Env) (m : String) (s : AppState)
    (h : firedRule m = 15) : (handleCommand env m s).state.isMuted = !s.isMuted := by
  rw [handleCommand_of_fired env m s 15 h]
  simp [ruleOutcome, emit]

/-! ## Substring containment lemmas -/

theorem isPrefixL_iff_exists (n : List Char) : ∀ h : List Char,
    isPrefixL n h = true ↔ ∃ r, h = n ++ r := by
  induction n with
  | nil =>
    intro h
    constructor
    · intro _; exact ⟨h, rfl⟩
    · intro _; rfl
  | cons a as ih =>
    intro h
    cases h with
    | nil =>
      constructor
      · intro hp; simp [isPrefixL] at hp
      · rintro ⟨r, hr⟩; simp at hr
    | cons b bs =>
      constructor
      · intro hp
        simp only [isPrefixL, Bool.and_eq_true, beq_iff_eq] at hp
        obtain ⟨hab, htl⟩ := hp
        obtain ⟨r, hr⟩ := (ih bs).1 htl
        exact ⟨r, by simp [hab, hr]⟩
      · rintro ⟨r, hr⟩
        simp only [List.cons_append, List.cons.injEq] at hr
        obtain ⟨hab, hr2⟩ := hr
        simp only [isPrefixL, Bool.and_eq_true, beq_iff_eq]
        exact ⟨hab.symm, (ih bs).2 ⟨r, hr2⟩⟩

theorem includesL_iff_exists : ∀ hay n : List Char,
    includesL hay n = true ↔ ∃ p r, hay = p ++ n ++ r := by
  intro hay
  induction hay with
  | nil =>
    intro n
    constructor
    · intro he
      simp only [includesL, List.isEmpty_iff] at he
      exact ⟨[], [], by simp [he]⟩
    · rintro ⟨p, r, hpr⟩
      have := List.append_eq_nil.mp (List.append_eq_nil.mp hpr.symm).1
      simp [includesL, this.2]
  | cons c t ih =>
    intro n
    constructor
    · intro hc
      simp only [includesL, Bool.or_eq_true] at hc
      rcases hc with hp | hrec
      · obtain ⟨r, hr⟩ := (isPrefixL_iff_exists n (c :: t)).1 hp
        exact ⟨[], r, by simp [hr]⟩
      · obtain ⟨p, r, hpr⟩ := (ih n).1 hrec
        exact ⟨c :: p, r, by simp [hpr]⟩
    · rintro ⟨p, r, hpr⟩
      simp only [includesL, Bool.or_eq_true]
      cases p with
      | nil =>
        left
        exact (isPrefixL_iff_exists n (c :: t)).2 ⟨r, by simpa using hpr⟩
      | cons d p2 =>
        right
        simp only [List.cons_append, List.cons.injEq] at hpr
        exact (ih n).2 ⟨p2, r, hpr.2⟩

theorem includesL_trans {a b c : List Char} (h1 : includesL a b = true)
    (h2 : includesL b c = true) : includesL a c = true := by
  obtain ⟨p1, r1, hp1⟩ := (includesL_iff_exists a b).1 h1
  obtain ⟨p2, r2, hp2⟩ := (includesL_iff_exists b c).1 h2
  refine (includesL_iff_exists a c).2 ⟨p1 ++ p2, r2 ++ r1, ?_⟩
  subst hp1 hp2
  simp [List.append_assoc]

theorem includes_trans (m sub sub2 : String) (h1 : includes m sub = true)
    (h2 : includes sub sub2 = true) : includes m sub2 = true :=
  includesL_trans h1 h2

/-! ## Session lemmas -/

theorem runSession_cons (u : Utterance) (us : List Utterance) (s : AppState) :
    runSession (u :: us) s = runSession us (stepUtterance u s) := rfl

theorem runSession_append (a b : List Utterance) (s : AppState) :
    runSession (a ++ b) s = runSession b (runSession a s) := by
  simp [runSession, List.foldl_append]

theorem stepUtterance_history (u : Utterance) (s : AppState) :
    ∃ r, (stepUtterance u s).history =
      s.history ++ ({ speaker := Speaker.user, message := u.transcript, timestamp := u.tUser } ::
        (if s.isMuted then [] else
          [{ speaker := Speaker.assistant, message := r, timestamp := u.tAsst }])) := by
  refine ⟨(handleCommand (envOf u) (lowerStr u.transcript) (withUserEntry u s)).reply, ?_⟩
  unfold stepUtterance
  rw [handleCommand_history]
  simp [withUserEntry, envOf, List.append_assoc]

theorem runSession_extends : ∀ (us : List Utterance) (s : AppState),
    ∃ ext, (runSession us s).history = s.history ++ ext := by
  intro us
  induction us with
  | nil => intro s; exact ⟨[], by simp [runSession]⟩
  | cons u us ih =>
    intro s
    obtain ⟨r, hr⟩ := stepUtterance_history u s
    obtain ⟨ext, he⟩ := ih (stepUtterance u s)
    refine ⟨({ speaker := Speaker.user, message := u.transcript, timestamp := u.tUser } ::
      (if s.isMuted then [] else
        [{ speaker := Speaker.assistant, message := r, timestamp := u.tAsst }])) ++ ext, ?_⟩
    rw [runSession_cons, he, hr, List.append_assoc]

theorem runSession_invariant : ∀ (us : List Utterance) (t : Nat) (s : AppState),
    chrono t us = true →
    List.Pairwise stampLE s.history →
    (∀ e ∈ s.history, e.timestamp ≤ t) →
    (List.countP isUserEntry (runSession us s).history
        = List.countP isUserEntry s.history + us.length)
    ∧ (List.countP isAsstEntry (runSession us s).history
        ≤ List.countP isAsstEntry s.history + us.length)
    ∧ List.Pairwise stampLE (runSession us s).history
    ∧ (∀ e ∈ (runSession us s).history, e.timestamp ≤ endTime t us) := by
  intro us
  induction us with
  | nil =>
    intro t s _ hp hb
    exact ⟨by simp [runSession], by simp [runSession], by simpa [runSession] using hp,
      by simpa [runSession, endTime] using hb⟩
  | cons u us ih =>
    intro t s hc hp hb
    simp only [chrono, Bool.and_eq_true, decide_eq_true_eq] at hc
    obtain ⟨⟨htu, hua⟩, hcr⟩ := hc
    obtain ⟨r, hr⟩ := stepUtterance_history u s
    have hcu : List.countP isUserEntry (stepUtterance u s).history
        = List.countP isUserEntry s.history + 1 := by
      rw [hr]; cases hmu : s.isMuted <;> simp [hmu, isUserEntry]
    have hca : List.countP isAsstEntry (stepUtterance u s).history
        ≤ List.countP isAsstEntry s.history + 1 := by
      rw [hr]; cases hmu : s.isMuted <;> simp [hmu, isAsstEntry]
    have hpair : List.Pairwise stampLE (stepUtterance u s).history := by
      rw [hr]
      apply List.pairwise_append.2
      refine ⟨hp, ?_, ?_⟩
      · cases hmu : s.isMuted <;> simp [hmu, stampLE, hua]
      · intro x hx y hy
        have hxt := hb x hx
        rcases List.mem_cons.mp hy with hy1 | hy2
        · subst hy1; simp only [stampLE]; omega
        · cases hmu : s.isMuted
          · simp [hmu] at hy2
            subst hy2; simp only [stampLE]; omega
          · simp [hmu] at hy2
    have hbound : ∀ e ∈ (stepUtterance u s).history, e.timestamp ≤ u.tAsst := by
      rw [hr]
      intro e he
      rcases List.mem_append.mp he with h1 | h2
      · exact le_trans (hb e h1) (le_trans htu hua)
      · rcases List.mem_cons.mp h2 with h3 | h4
        · subst h3; simpa using hua
        · cases hmu : s.isMuted
          · simp [hmu] at h4
            subst h4; simp
          · simp [hmu] at h4
    obtain ⟨i1, i2, i3, i4⟩ := ih u.tAsst (stepUtterance u s) hcr hpair hbound
    rw [runSession_cons]
    refine ⟨?_, ?_, i3, ?_⟩
    · rw [i1, hcu, List.length_cons]; omega
    · rw [List.length_cons]; omega
    · simpa [endTime] using i4

/-! ## Claim theorems -/

/-- Claim C1: command dispatch is first-match-wins over the fixed priority
order: the rule whose action executes (`firedRule`) always matches, no
rule of smaller index matches, and it is the unique such rule, so exactly
one rule's action executes per transcript; in particular
"what is the time" (which matches both the "time" rule 8 and the
"what is" rule 10) triggers the higher-priority "time" rule and speaks
the current time. -/
theorem dispatch_first_match_wins :
    (∀ m : String, ruleMatches (firedRule m) m = true
      ∧ (∀ j, j < firedRule m → ruleMatches j m = false)
      ∧ (∀ k, ruleMatches k m = true → (∀ j, j < k → ruleMatches j m = false) →
          k = firedRule m))
    ∧ firedRule "what is the time" = 8
    ∧ ruleMatches 10 "what is the time" = true
    ∧ (∀ (env : Env) (s : AppState), (handleCommand env "what is the time" s).reply
        = "The current time is " ++ env.timeString) := by
  refine ⟨?_, by decide, by decide, ?_⟩
  · intro m
    exact ⟨(firedRule_least m).1, (firedRule_least m).2,
      fun k hk hl => firedRule_unique m k hk hl⟩
  · intro env s
    rw [handleCommand_of_fired env "what is the time" s 8 (by decide)]
    simp [ruleOutcome, emit]

theorem dispatch_first_match_wins_witness :
    (3 < firedRule "what is the time") ∧ ruleMatches 3 "what is the time" = false :=
  ⟨by decide, (dispatch_first_match_wins.1 "what is the time").2.1 3 (by decide)⟩

/-- Claim C10: the greeting predicate tests bare substring containment of
"hey"/"hello"/"hi", so any transcript containing the word "this" (which
contains "hi") fires the greeting rule, pre-empting every later rule; in
particular "what is this" is answered with the greeting instead of the
"what is" search. -/
theorem greeting_substring_preempts :
    (∀ m : String, includes m "this" = true → firedRule m = 1)
    ∧ firedRule "what is this" = 1
    ∧ (∀ (env : Env) (s : AppState), (handleCommand env "what is this" s).reply = greetReply) := by
  refine ⟨?_, by decide, ?_⟩
  · intro m hthis
    have hhi : includes m "hi" = true := includes_trans m "this" "hi" hthis (by decide)
    unfold firedRule
    simp [hhi]
  · intro env s
    rw [handleCommand_of_fired env "what is this" s 1 (by decide)]
    simp [ruleOutcome, emit]

theorem greeting_substring_preempts_witness :
    includes "this is a test" "this" = true ∧ firedRule "this is a test" = 1 :=
  ⟨by decide, greeting_substring_preempts.1 "this is a test" (by decide)⟩

/-- Claim C4: whenever the display-mode rule (rule 2) fires, the dark-mode
flag is set to `includes m "dark mode"`: true when the transcript contains
"dark mode" (dark wins even when "light mode" is also present), false when
it only contains "light mode"; the reply names the resulting mode. -/
theorem display_mode_rule_sets_flag :
    ∀ (env : Env) (m : String) (s : AppState), firedRule m = 2 →
      (includes m "dark mode" = true →
        (handleCommand env m s).state.isDarkMode = true
        ∧ (handleCommand env m s).reply = "Switching to dark mode")
      ∧ (includes m "dark mode" = false →
        includes m "light mode" = true
        ∧ (handleCommand env m s).state.isDarkMode = false
        ∧ (handleCommand env m s).reply = "Switching to light mode") := by
  intro env m s h
  rw [handleCommand_of_fired env m s 2 h]
  constructor
  · intro hd
    refine ⟨by simp [ruleOutcome, emit, hd], ?_⟩
    have : (ruleOutcome 2 env m s).reply
        = "Switching to " ++ "dark" ++ " mode" := by simp [ruleOutcome, emit, hd]
    rw [this]; decide
  · intro hd
    have hlight : includes m "light mode" = true := by
      have h2 := (firedRule_least m).1
      rw [h] at h2
      simpa [ruleMatches, hd] using h2
    refine ⟨hlight, by simp [ruleOutcome, emit, hd], ?_⟩
    have : (ruleOutcome 2 env m s).reply
        = "Switching to " ++ "light" ++ " mode" := by simp [ruleOutcome, emit, hd]
    rw [this]; decide

theorem display_mode_rule_sets_flag_witness :
    firedRule "dark mode please" = 2
    ∧ includes "dark mode please" "dark mode" = true
    ∧ (handleCommand env0 "dark mode please" st0).state.isDarkMode = true :=
  ⟨by decide, by decide,
    ((display_mode_rule_sets_flag env0 "dark mode please" st0 (by decide)).1 (by decide)).1⟩

/-- Claim C5: whenever the "what is"/"who is"/"what are" rule (rule 10)
fires, the first occurrence of the matched phrase is stripped, the trimmed
remainder is URL-encoded into a Google search URL that is opened, and the
reply names that remainder; in particular "what is the capital of france"
opens a search URL containing the encoded query "the capital of france". -/
theorem query_rule_opens_search :
    (∀ (env : Env) (m : String) (s : AppState), firedRule m = 10 →
      (handleCommand env m s).navigation
        = some ("https://www.google.com/search?q="
            ++ encodeURIComponent (trimS (stripQueryPhrase m)))
      ∧ (handleCommand env m s).reply
        = "I've found some information about " ++ trimS (stripQueryPhrase m)
            ++ ". Opening search results.")
    ∧ firedRule "what is the capital of france" = 10
    ∧ trimS (stripQueryPhrase "what is the capital of france") = "the capital of france"
    ∧ encodeURIComponent "the capital of france" = "the%20capital%20of%20france"
    ∧ (∀ (env : Env) (s : AppState),
        (handleCommand env "what is the capital of france" s).navigation
          = some "https://www.google.com/search?q=the%20capital%20of%20france")
    ∧ includes "https://www.google.com/search?q=the%20capital%20of%20france"
        "the%20capital%20of%20france" = true := by
  refine ⟨?_, by decide, by decide, by decide, ?_, by decide⟩
  · intro env m s h
    rw [handleCommand_of_fired env m s 10 h]
    exact ⟨by simp [ruleOutcome, emit], by simp [ruleOutcome, emit]⟩
  · intro env s
    rw [handleCommand_of_fired env "what is the capital of france" s 10 (by decide)]
    have hnav : (ruleOutcome 10 env "what is the capital of france" s).navigation
        = some ("https://www.google.com/search?q="
            ++ encodeURIComponent (trimS (stripQueryPhrase "what is the capital of france"))) := by
      simp [ruleOutcome, emit]
    rw [hnav]; decide

theorem query_rule_opens_search_witness :
    firedRule "who is ada lovelace" = 10
    ∧ (handleCommand env0 "who is ada lovelace" st0).navigation
        = some ("https://www.google.com/search?q="
            ++ encodeURIComponent (trimS (stripQueryPhrase "who is ada lovelace"))) :=
  ⟨by decide, (query_rule_opens_search.1 env0 "who is ada lovelace" st0 (by decide)).1⟩

/-- Claim C6: whenever no rule matches, the fallback (branch 16) fires: the
entire transcript is URL-encoded into a generic Google search URL that is
opened, and the reply is the fixed generic searching confirmation; in
particular "xyzzy" matches no rule and is searched verbatim. -/
theorem fallback_opens_generic_search :
    (∀ (env : Env) (m : String) (s : AppState), firedRule m = 16 →
      (handleCommand env m s).navigation
        = some ("https://www.google.com/search?q=" ++ encodeURIComponent m)
      ∧ (handleCommand env m s).reply = "I'm searching for information about your request")
    ∧ firedRule "xyzzy" = 16
    ∧ (∀ j, j ≤ 15 → ruleMatches j "xyzzy" = false)
    ∧ (∀ (env : Env) (s : AppState), (handleCommand env "xyzzy" s).navigation
        = some "https://www.google.com/search?q=xyzzy") := by
  refine ⟨?_, by decide, by decide, ?_⟩
  · intro env m s h
    rw [handleCommand_of_fired env m s 16 h]
    exact ⟨by simp [ruleOutcome, emit], by simp [ruleOutcome, emit]⟩
  · intro env s
    rw [handleCommand_of_fired env "xyzzy" s 16 (by decide)]
    have hnav : (ruleOutcome 16 env "xyzzy" s).navigation
        = some ("https://www.google.com/search?q=" ++ encodeURIComponent "xyzzy") := by
      simp [ruleOutcome, emit]
    rw [hnav]; decide

theorem fallback_opens_generic_search_witness :
    firedRule "zzyzx road" = 16
    ∧ (handleCommand env0 "zzyzx road" st0).navigation
        = some ("https://www.google.com/search?q=" ++ encodeURIComponent "zzyzx road") :=
  ⟨by decide, (fallback_opens_generic_search.1 env0 "zzyzx road" st0 (by decide)).1⟩

/-- Claim C7: whenever the weather rule (rule 12) fires, the first
occurrence of "weather" is stripped and the trimmed remainder is the
location, defaulting to "current location" when the remainder is empty; a
weather search URL for that location is opened and the reply names it. -/
theorem weather_rule_location :
    (∀ (env : Env) (m : String) (s : AppState), firedRule m = 12 →
      (handleCommand env m s).navigation
        = some ("https://www.google.com/search?q=weather+"
            ++ encodeURIComponent (weatherLocation m))
      ∧ (handleCommand env m s).reply = "Checking weather for " ++ weatherLocation m)
    ∧ (∀ m : String, trimS (replaceFirstS m "weather") = "" →
        weatherLocation m = "current location")
    ∧ (∀ m : String, trimS (replaceFirstS m "weather") ≠ "" →
        weatherLocation m = trimS (replaceFirstS m "weather"))
    ∧ weatherLocation "weather" = "current location"
    ∧ weatherLocation "weather in paris" = "in paris"
    ∧ firedRule "weather" = 12 := by
  refine ⟨?_, ?_, ?_, by decide, by decide, by decide⟩
  · intro env m s h
    rw [handleCommand_of_fired env m s 12 h]
    exact ⟨by simp [ruleOutcome, emit], by simp [ruleOutcome, emit]⟩
  · intro m hm; simp [weatherLocation, hm]
  · intro m hm; simp [weatherLocation, hm]

theorem weather_rule_location_witness :
    firedRule "weather in paris" = 12
    ∧ (handleCommand env0 "weather in paris" st0).reply
        = "Checking weather for " ++ weatherLocation "weather in paris" :=
  ⟨by decide, (weather_rule_location.1 env0 "weather in paris" st0 (by decide)).2⟩

/-- Claim C2 counterexample: the claim says that when the mute rule fires
while sound is on (muting), the spoken reply is "Sound enabled".  On the
code, muting from the sound-on state speaks "Sound disabled" (the ternary
`isMuted ? "Sound enabled" : "Sound disabled"` evaluates its pre-toggle
flag, which is false); and when unmuting, nothing is spoken at all because
`speak` returns immediately under the still-set pre-toggle flag. -/
theorem mute_reply_claim_cex :
    st0.isMuted = false
    ∧ firedRule "mute" = 15
    ∧ (handleCommand env0 "mute" st0).reply = "Sound disabled"
    ∧ (handleCommand env0 "mute" st0).spoken = true
    ∧ ¬((handleCommand env0 "mute" st0).reply = "Sound enabled")
    ∧ stMuted.isMuted = true
    ∧ (handleCommand env0 "unmute" stMuted).reply = "Sound enabled"
    ∧ (handleCommand env0 "unmute" stMuted).spoken = false := by
  decide

/-- Claim C2 (amended): the mute rule's reply text names the post-toggle
state: muting (pre-toggle sound on) passes and speaks "Sound disabled";
unmuting (pre-toggle sound off) passes "Sound enabled" to `speak`, but
`speak` returns immediately under the pre-toggle mute flag, so that reply
is never actually spoken. -/
theorem mute_reply_post_toggle :
    ∀ (env : Env) (m : String) (s : AppState), firedRule m = 15 →
      (handleCommand env m s).state.isMuted = !s.isMuted
      ∧ (s.isMuted = false →
          (handleCommand env m s).reply = "Sound disabled"
          ∧ (handleCommand env m s).spoken = true)
      ∧ (s.isMuted = true →
          (handleCommand env m s).reply = "Sound enabled"
          ∧ (handleCommand env m s).spoken = false) := by
  intro env m s h
  rw [handleCommand_of_fired env m s 15 h]
  refine ⟨by simp [ruleOutcome, emit], ?_, ?_⟩
  · intro hm
    exact ⟨by simp [ruleOutcome, emit, hm], by simp [ruleOutcome, emit, speak, hm]⟩
  · intro hm
    exact ⟨by simp [ruleOutcome, emit, hm], by simp [ruleOutcome, emit, speak, hm]⟩

theorem mute_reply_post_toggle_witness :
    firedRule "mute" = 15 ∧ st0.isMuted = false
    ∧ (handleCommand env0 "mute" st0).reply = "Sound disabled" :=
  ⟨by decide, by decide,
    ((mute_reply_post_toggle env0 "mute" st0 (by decide)).2.1 (by decide)).1⟩

/-- Claim C8: the mute toggle is an involution: from any starting state,
invoking the mute rule twice in succession returns the mute flag to its
original value. -/
theorem mute_toggle_involution :
    ∀ (env1 env2 : Env) (m1 m2 : String) (s : AppState),
      firedRule m1 = 15 → firedRule m2 = 15 →
      (handleCommand env2 m2 (handleCommand env1 m1 s).state).state.isMuted = s.isMuted := by
  intro env1 env2 m1 m2 s h1 h2
  rw [handleCommand_mute_flag env2 m2 _ h2, handleCommand_mute_flag env1 m1 s h1,
    Bool.not_not]

theorem mute_toggle_involution_witness :
    firedRule "mute" = 15 ∧ firedRule "unmute" = 15
    ∧ (handleCommand env0 "unmute" (handleCommand env0 "mute" st0).state).state.isMuted
        = st0.isMuted :=
  ⟨by decide, by decide,
    mute_toggle_involution env0 env0 "mute" "unmute" st0 (by decide) (by decide)⟩

/-- Claim C9: if the mute flag is set when `speak` runs, no synthesis
utterance is created and no assistant entry is appended to the history,
while the rule's other side effects still occur: the navigation and the
dark-mode flag are those of the same command run unmuted, and the voice
"unmute" command still clears the flag — silently. -/
theorem speak_muted_no_effect :
    ∀ (env : Env) (m : String) (s : AppState), s.isMuted = true →
      (handleCommand env m s).spoken = false
      ∧ (handleCommand env m s).state.history = s.history
      ∧ (handleCommand env m s).navigation
          = (handleCommand env m { s with isMuted := false }).navigation
      ∧ (handleCommand env m s).state.isDarkMode
          = (handleCommand env m { s with isMuted := false }).state.isDarkMode
      ∧ (firedRule m = 15 → (handleCommand env m s).state.isMuted = false) := by
  intro env m s h
  refine ⟨?_, ?_, handleCommand_navigation_eq env m s,
    handleCommand_darkmode_eq env m s, ?_⟩
  · rw [handleCommand_spoken]; simp [h]
  · rw [handleCommand_history]; simp [h]
  · intro h15; rw [handleCommand_mute_flag env m s h15]; simp [h]

theorem speak_muted_no_effect_witness :
    stMuted.isMuted = true
    ∧ (handleCommand env0 "unmute" stMuted).spoken = false
    ∧ (handleCommand env0 "unmute" stMuted).state.isMuted = false :=
  ⟨by decide, (speak_muted_no_effect env0 "unmute" stMuted (by decide)).1,
    (speak_muted_no_effect env0 "unmute" stMuted (by decide)).2.2.2.2 (by decide)⟩

/-- Claim C3: over a chronological session started with an empty history,
after interpreting the utterances of `us` the history holds exactly
`us.length` user entries and at most `us.length` assistant entries,
history is only ever extended (the history after any prefix of the
session is a prefix of the final history), timestamps are non-decreasing,
and each utterance's user entry precedes the assistant entry (if any)
produced in response to it. -/
theorem history_log_invariant :
    ∀ (us : List Utterance) (s0 : AppState), s0.history = [] → chrono 0 us = true →
      List.countP isUserEntry (runSession us s0).history = us.length
      ∧ List.countP isAsstEntry (runSession us s0).history ≤ us.length
      ∧ List.Pairwise stampLE (runSession us s0).history
      ∧ (∀ a b, us = a ++ b →
          ∃ ext, (runSession us s0).history = (runSession a s0).history ++ ext)
      ∧ (∀ (a : List Utterance) (u : Utterance) (b : List Utterance), us = a ++ u :: b →
          ∃ (r : String) (rest : List HistoryEntry),
            (runSession (a ++ [u]) s0).history
              = (runSession a s0).history
                ++ ({ speaker := Speaker.user, message := u.transcript,
                      timestamp := u.tUser } :: rest)
            ∧ (rest = []
               ∨ rest = [{ speaker := Speaker.assistant, message := r,
                           timestamp := u.tAsst }])) := by
  intro us s0 h0 hc
  obtain ⟨i1, i2, i3, i4⟩ := runSession_invariant us 0 s0 hc (by simp [h0]) (by simp [h0])
  refine ⟨by simpa [h0] using i1, by simpa [h0] using i2, i3, ?_, ?_⟩
  · intro a b hab
    subst hab
    rw [runSession_append]
    exact runSession_extends b (runSession a s0)
  · intro a u b hab
    obtain ⟨r, hr⟩ := stepUtterance_history u (runSession a s0)
    refine ⟨r, (if (runSession a s0).isMuted then [] else
      [{ speaker := Speaker.assistant, message := r, timestamp := u.tAsst }]), ?_, ?_⟩
    · rw [runSession_append]
      exact hr
    · cases hmu : (runSession a s0).isMuted
      · right; simp [hmu]
      · left; simp [hmu]

theorem history_log_invariant_witness :
    chrono 0 us0 = true ∧ st0.history = []
    ∧ List.countP isUserEntry (runSession us0 st0).history = us0.length :=
  ⟨by decide, by decide, (history_log_invariant us0 st0 rfl (by decide)).1⟩
